import Mathlib

/-!
Shallow embedding of the loopor LV2 looper engine (source file
src/loopor-lv2/source/loopor.cpp).  Samples are modelled as rationals,
machine size_t counters as naturals, and the two storage arenas as total
functions from naturals to rationals (the C++ arrays, with out-of-range
cells carrying junk values that the in-range code never relies on).
The per-block entry point `Looper.run`, the command handlers
(`startRecording`, `finishRecording`, `undo`, `redo`, `reset`) and the
button wiring are translated statement by statement from the source.
-/

namespace Loopor

/-- Source constant NR_OF_DUBS: the maximum number of dubs. -/
def NR_OF_DUBS : ℕ := 128

/-- Source constant STORAGE_MEMORY_SECONDS. -/
def STORAGE_MEMORY_SECONDS : ℕ := 360

/-- Source constant NR_OF_BLEND_SAMPLES. -/
def NR_OF_BLEND_SAMPLES : ℕ := 64

/-- Source enum State. -/
inductive State where
  | inactive
  | waitingForThreshold
  | recording
  | playing
deriving DecidableEq, Repr

/-- Source class Dub: one recorded layer's placement. -/
structure Dub where
  storageOffset : ℕ
  length : ℕ
  startIndex : ℕ
deriving DecidableEq, Repr

instance : Inhabited Dub := ⟨⟨0, 0, 0⟩⟩

/-- The mutable fields of the source class Looper that the audio engine
reads or writes (ports, buttons and the log file are external wiring). -/
@[ext]
structure Looper where
  state : State
  currentLoopIndex : ℕ
  loopLength : ℕ
  storageSize : ℕ
  nrOfUsedSamples : ℕ
  storage1 : ℕ → ℚ
  storage2 : ℕ → ℚ
  nrOfDubs : ℕ
  maxUsedDubs : ℕ
  dubs : ℕ → Dub

namespace Looper

/-- Source constructor Looper::Looper: allocates
sampleRate * STORAGE_MEMORY_SECONDS * 2 samples per channel and zero
initialises every field (the C++ in-class initialisers). -/
def init (sampleRate : ℕ) : Looper where
  state := State.inactive
  currentLoopIndex := 0
  loopLength := 0
  storageSize := sampleRate * STORAGE_MEMORY_SECONDS * 2
  nrOfUsedSamples := 0
  storage1 := fun _ => 0
  storage2 := fun _ => 0
  nrOfDubs := 0
  maxUsedDubs := 0
  dubs := fun _ => default

/-- Source Looper::reset. -/
def reset (s : Looper) : Looper :=
  { s with
    nrOfDubs := 0
    maxUsedDubs := 0
    nrOfUsedSamples := 0
    state := State.inactive
    currentLoopIndex := 0
    loopLength := 0 }

/-- Source Looper::startRecording. -/
def startRecording (s : Looper) : Looper :=
  if NR_OF_DUBS ≤ s.nrOfDubs then s
  else if s.storageSize ≤ s.nrOfUsedSamples then s
  else
    { s with
      dubs := Function.update s.dubs s.nrOfDubs
        { s.dubs s.nrOfDubs with storageOffset := s.nrOfUsedSamples, length := 0 }
      state := State.waitingForThreshold }

/-- The fade loop inside Looper::finishRecording, performing the first
`k` iterations of `for (s = 0; s < length; s++)`: at step `s` both
channels are scaled by `s / len` at the advancing start index and at the
retreating end index, in that order. -/
def blendSteps (len startIndex endIndex : ℕ) (st1 st2 : ℕ → ℚ) :
    ℕ → (ℕ → ℚ) × (ℕ → ℚ)
  | 0 => (st1, st2)
  | k + 1 =>
    let p := blendSteps len startIndex endIndex st1 st2 k
    let factor : ℚ := (k : ℚ) / (len : ℚ)
    let a := Function.update p.1 (startIndex + k) (p.1 (startIndex + k) * factor)
    let a' := Function.update a (endIndex - k) (a (endIndex - k) * factor)
    let b := Function.update p.2 (startIndex + k) (p.2 (startIndex + k) * factor)
    let b' := Function.update b (endIndex - k) (b (endIndex - k) * factor)
    (a', b')

/-- Source Looper::finishRecording. -/
def finishRecording (s : Looper) : Looper :=
  if s.state = State.waitingForThreshold then
    if s.nrOfDubs = 0 then { s with state := State.inactive }
    else { s with state := State.playing }
  else
    let dub := s.dubs s.nrOfDubs
    let s1 :=
      if s.nrOfDubs = 0 then
        { s with state := State.playing, loopLength := dub.length, currentLoopIndex := 0 }
      else { s with state := State.playing }
    let len := if NR_OF_BLEND_SAMPLES < dub.length then NR_OF_BLEND_SAMPLES else dub.length
    let p := blendSteps len dub.storageOffset (dub.storageOffset + dub.length - 1)
      s1.storage1 s1.storage2 len
    { s1 with
      storage1 := p.1
      storage2 := p.2
      nrOfDubs := s.nrOfDubs + 1
      maxUsedDubs := s.nrOfDubs + 1 }

/-- The body of Looper::undo after the finish-if-recording preamble. -/
def undoCore (s : Looper) : Looper :=
  if s.nrOfDubs = 0 then s
  else
    let n := s.nrOfDubs - 1
    let s1 := { s with nrOfDubs := n, nrOfUsedSamples := (s.dubs n).storageOffset }
    if n = 0 then { s1 with loopLength := 0, currentLoopIndex := 0 } else s1

/-- Source Looper::undo. -/
def undo (s : Looper) : Looper :=
  if s.state = State.recording then undoCore (finishRecording s) else undoCore s

/-- Source Looper::redo. -/
def redo (s : Looper) : Looper :=
  if s.state = State.recording then s
  else if s.nrOfDubs = s.maxUsedDubs then s
  else
    let dub := s.dubs s.nrOfDubs
    let s1 := { s with nrOfUsedSamples := dub.storageOffset + dub.length }
    let s2 :=
      if s.nrOfDubs = 0 then
        { s1 with currentLoopIndex := 0, loopLength := dub.length }
      else s1
    { s2 with nrOfDubs := s.nrOfDubs + 1 }

/-- The threshold test at the top of the per-sample loop in Looper::run:
while waiting for the threshold, compare the absolute input values
against the linear threshold and switch to recording, stamping the new
dub's start index with the current loop position. -/
def thresholdCheck (threshold in1 in2 : ℚ) (s : Looper) : Looper :=
  if s.state = State.waitingForThreshold ∧ (threshold ≤ |in1| ∨ threshold ≤ |in2|) then
    { s with
      dubs := Function.update s.dubs s.nrOfDubs
        { s.dubs s.nrOfDubs with startIndex := s.currentLoopIndex }
      state := State.recording }
  else s

/-- The capture statement of the per-sample loop in Looper::run: while
recording, append the sample pair to the arena and grow the dub. -/
def recordStep (in1 in2 : ℚ) (s : Looper) : Looper :=
  if s.state = State.recording then
    { s with
      storage1 := Function.update s.storage1 s.nrOfUsedSamples in1
      storage2 := Function.update s.storage2 s.nrOfUsedSamples in2
      nrOfUsedSamples := s.nrOfUsedSamples + 1
      dubs := Function.update s.dubs s.nrOfDubs
        { s.dubs s.nrOfDubs with length := (s.dubs s.nrOfDubs).length + 1 } }
  else s

/-- The playback/mix loop of Looper::run: dry input plus the windowed
contribution of every active dub at the current loop position. -/
def mixOuts (dryAmount in1 in2 : ℚ) (s : Looper) : ℚ × ℚ :=
  (List.range s.nrOfDubs).foldl
    (fun acc t =>
      let dub := s.dubs t
      if s.currentLoopIndex < dub.startIndex then acc
      else if dub.startIndex + dub.length ≤ s.currentLoopIndex then acc
      else
        let index := dub.storageOffset + (s.currentLoopIndex - dub.startIndex)
        (acc.1 + s.storage1 index, acc.2 + s.storage2 index))
    (dryAmount * in1, dryAmount * in2)

/-- The loop-advance and wrap logic at the bottom of the per-sample loop
in Looper::run. -/
def advanceStep (s : Looper) : Looper :=
  let s3 := if 0 < s.nrOfDubs then { s with currentLoopIndex := s.currentLoopIndex + 1 } else s
  if s3.loopLength < s3.currentLoopIndex ∨ s3.storageSize ≤ s3.nrOfUsedSamples then
    let sW := { s3 with currentLoopIndex := 0 }
    if sW.state = State.recording then
      let sF := finishRecording sW
      if 1 < sF.nrOfDubs then startRecording sF else sF
    else sW
  else s3

/-- One iteration of the per-sample loop in Looper::run, returning the
new engine state and the output sample pair. -/
def runSample (threshold dryAmount in1 in2 : ℚ) (s : Looper) : Looper × (ℚ × ℚ) :=
  let s1 := thresholdCheck threshold in1 in2 s
  let s2 := recordStep in1 in2 s1
  let out := mixOuts dryAmount in1 in2 s2
  (advanceStep s2, out)

/-- The per-sample loop of Looper::run over a whole block. -/
def runLoop (threshold dryAmount : ℚ) :
    List (ℚ × ℚ) → Looper → Looper × List (ℚ × ℚ)
  | [], s => (s, [])
  | p :: rest, s =>
    let r := runSample threshold dryAmount p.1 p.2 s
    let rr := runLoop threshold dryAmount rest r.1
    (rr.1, r.2 :: rr.2)

/-- Source Looper::run: the per-block entry point.  The threshold and
dry amount are the parameter values fetched by updateParameters for this
block; the input list is the pair of input port views. -/
def run (threshold dryAmount : ℚ) (input : List (ℚ × ℚ)) (s : Looper) :
    Looper × List (ℚ × ℚ) :=
  if s.state = State.inactive then
    (s, input.map fun p => (dryAmount * p.1, dryAmount * p.2))
  else runLoop threshold dryAmount input s

end Looper

/-- Source dbToFloat: converts the decibel threshold parameter to a
linear amplitude, clamped to zero at or below -90 dB. -/
noncomputable def dbToFloat (db : ℚ) : ℝ :=
  if db ≤ -90 then 0 else Real.rpow 10 ((db : ℝ) / 20)

/-- The debounced command events the button callbacks in
Looper::connectPort translate into engine transitions: the Activate
toggle, the chained Dub, Undo, Redo and the double-click Reset. -/
inductive Cmd where
  | activate
  | dubAndContinue
  | undoCmd
  | redoCmd
  | resetCmd
deriving DecidableEq, Repr

/-- The effect of one debounced button press, as wired in
Looper::connectPort. -/
def applyCmd (c : Cmd) (s : Looper) : Looper :=
  match c with
  | Cmd.activate =>
    if s.state = State.recording ∨ s.state = State.waitingForThreshold then
      s.finishRecording
    else s.startRecording
  | Cmd.dubAndContinue =>
    let s1 :=
      if s.state = State.recording ∨ s.state = State.waitingForThreshold then
        s.finishRecording
      else s
    s1.startRecording
  | Cmd.undoCmd => s.undo
  | Cmd.redoCmd => s.redo
  | Cmd.resetCmd => s.reset

/-- The states of the engine reachable from construction at a given
sample rate by any interleaving of debounced commands and processed
audio blocks. -/
inductive Reachable (sampleRate : ℕ) : Looper → Prop
  | init : Reachable sampleRate (Looper.init sampleRate)
  | cmd (c : Cmd) {s : Looper} : Reachable sampleRate s →
      Reachable sampleRate (applyCmd c s)
  | step (threshold dryAmount : ℚ) (input : List (ℚ × ℚ)) {s : Looper} :
      Reachable sampleRate s →
      Reachable sampleRate (Looper.run threshold dryAmount input s).1

namespace Looper

/-! ### Characterisation of the boundary fade -/

/-- Single-channel version of `blendSteps`, used to reason about the two
independent channels one at a time. -/
def blendChan (len off endI : ℕ) (st : ℕ → ℚ) : ℕ → (ℕ → ℚ)
  | 0 => st
  | k + 1 =>
    let q := blendChan len off endI st k
    let factor : ℚ := (k : ℚ) / (len : ℚ)
    let a := Function.update q (off + k) (q (off + k) * factor)
    Function.update a (endI - k) (a (endI - k) * factor)

theorem blendSteps_eq (len off endI : ℕ) (st1 st2 : ℕ → ℚ) (k : ℕ) :
    blendSteps len off endI st1 st2 k =
      (blendChan len off endI st1 k, blendChan len off endI st2 k) := by
  induction k with
  | zero => rfl
  | succ k ih => rw [blendSteps, blendChan, blendChan, ih]

/-- Pointwise value of the fade loop after its first `k` iterations: a
cell keeps its old value, scaled by `(i - off) / len` if the rising ramp
has passed it and by `(endI - i) / len` if the falling ramp has passed
it (both when the two ramps overlap). -/
theorem blendChan_apply (len off endI : ℕ) (st : ℕ → ℚ) :
    ∀ k : ℕ, k ≤ endI + 1 → ∀ i : ℕ,
      blendChan len off endI st k i =
        st i * (if off ≤ i ∧ i < off + k then ((i - off : ℕ) : ℚ) / (len : ℚ) else 1)
          * (if endI + 1 ≤ i + k ∧ i ≤ endI then ((endI - i : ℕ) : ℚ) / (len : ℚ) else 1) := by
  intro k
  induction k with
  | zero =>
    intro hk i
    rw [blendChan, if_neg (by omega), if_neg (by omega)]
    ring
  | succ k ih =>
    intro hk i
    have hk' : k ≤ endI + 1 := by omega
    have hke : k ≤ endI := by omega
    rw [blendChan]
    rw [Function.update_apply, Function.update_apply, Function.update_apply]
    by_cases h1 : i = endI - k
    · rw [if_pos h1]
      have hik : i + k = endI := by omega
      by_cases h2 : endI - k = off + k
      · rw [if_pos h2]
        have hoff : i = off + k := by omega
        rw [ih hk' (off + k)]
        rw [if_neg (by omega), if_neg (by omega)]
        rw [if_pos (by omega : off ≤ i ∧ i < off + (k + 1)),
            if_pos (by omega : endI + 1 ≤ i + (k + 1) ∧ i ≤ endI)]
        have e1 : (i - off : ℕ) = k := by omega
        have e2 : (endI - i : ℕ) = k := by omega
        rw [e1, e2, ← hoff]
        ring
      · rw [if_neg h2, ← h1, ih hk' i]
        rw [if_neg (by omega : ¬(endI + 1 ≤ i + k ∧ i ≤ endI))]
        rw [if_pos (by omega : endI + 1 ≤ i + (k + 1) ∧ i ≤ endI)]
        have e2 : (endI - i : ℕ) = k := by omega
        rw [e2]
        have hS : (off ≤ i ∧ i < off + (k + 1)) ↔ (off ≤ i ∧ i < off + k) := by omega
        simp only [hS]
        ring
    · rw [if_neg h1]
      by_cases h3 : i = off + k
      · rw [if_pos h3, ← h3, ih hk' i]
        rw [if_neg (by omega : ¬(off ≤ i ∧ i < off + k))]
        rw [if_pos (by omega : off ≤ i ∧ i < off + (k + 1))]
        have e1 : (i - off : ℕ) = k := by omega
        rw [e1]
        have hE : (endI + 1 ≤ i + (k + 1) ∧ i ≤ endI) ↔ (endI + 1 ≤ i + k ∧ i ≤ endI) := by
          omega
        simp only [hE]
        ring
      · rw [if_neg h3, ih hk' i]
        have hS : (off ≤ i ∧ i < off + (k + 1)) ↔ (off ≤ i ∧ i < off + k) := by omega
        have hE : (endI + 1 ≤ i + (k + 1) ∧ i ≤ endI) ↔ (endI + 1 ≤ i + k ∧ i ≤ endI) := by
          omega
        simp only [hS, hE]

/-- `finishRecording` on a recording state: how the two storage channels
are rewritten by the fade, with all other bookkeeping as in the source. -/
theorem finishRecording_recording (s : Looper) (hrec : s.state = State.recording) :
    finishRecording s =
      { s with
        state := State.playing
        loopLength := if s.nrOfDubs = 0 then (s.dubs s.nrOfDubs).length else s.loopLength
        currentLoopIndex := if s.nrOfDubs = 0 then 0 else s.currentLoopIndex
        storage1 := blendChan
          (if NR_OF_BLEND_SAMPLES < (s.dubs s.nrOfDubs).length then NR_OF_BLEND_SAMPLES
           else (s.dubs s.nrOfDubs).length)
          (s.dubs s.nrOfDubs).storageOffset
          ((s.dubs s.nrOfDubs).storageOffset + (s.dubs s.nrOfDubs).length - 1)
          s.storage1
          (if NR_OF_BLEND_SAMPLES < (s.dubs s.nrOfDubs).length then NR_OF_BLEND_SAMPLES
           else (s.dubs s.nrOfDubs).length)
        storage2 := blendChan
          (if NR_OF_BLEND_SAMPLES < (s.dubs s.nrOfDubs).length then NR_OF_BLEND_SAMPLES
           else (s.dubs s.nrOfDubs).length)
          (s.dubs s.nrOfDubs).storageOffset
          ((s.dubs s.nrOfDubs).storageOffset + (s.dubs s.nrOfDubs).length - 1)
          s.storage2
          (if NR_OF_BLEND_SAMPLES < (s.dubs s.nrOfDubs).length then NR_OF_BLEND_SAMPLES
           else (s.dubs s.nrOfDubs).length)
        nrOfDubs := s.nrOfDubs + 1
        maxUsedDubs := s.nrOfDubs + 1 } := by
  rw [finishRecording, if_neg (by rw [hrec]; intro h; cases h)]
  by_cases h0 : s.nrOfDubs = 0
  · simp [h0, blendSteps_eq]
  · simp [h0, blendSteps_eq]

/-! ### The reachable-state invariant -/

/-- The inductive invariant of the engine: the loop cursor never passes
the loop length, the loop length agrees with the first committed dub
whenever one is active, and the active count never exceeds the redo
horizon. -/
def Inv (s : Looper) : Prop :=
  s.currentLoopIndex ≤ s.loopLength
  ∧ (1 ≤ s.nrOfDubs → s.loopLength = (s.dubs 0).length)
  ∧ s.nrOfDubs ≤ s.maxUsedDubs

theorem inv_init (sampleRate : ℕ) : Inv (init sampleRate) := by
  refine ⟨le_refl 0, ?_, le_refl 0⟩
  intro h
  cases h

theorem inv_reset (s : Looper) : Inv (reset s) := by
  refine ⟨le_refl 0, ?_, le_refl 0⟩
  intro h
  cases h

theorem inv_startRecording (s : Looper) (h : Inv s) : Inv (startRecording s) := by
  obtain ⟨h1, h2, h3⟩ := h
  rw [startRecording]
  split_ifs with g1 g2
  · exact ⟨h1, h2, h3⟩
  · exact ⟨h1, h2, h3⟩
  · refine ⟨h1, ?_, h3⟩
    intro hn
    dsimp only at hn ⊢
    rw [Function.update_apply, if_neg (by omega)]
    exact h2 hn

theorem inv_finishRecording (s : Looper) (h : Inv s) : Inv (finishRecording s) := by
  obtain ⟨h1, h2, h3⟩ := h
  rw [finishRecording]
  split_ifs with g1 g2 g3
  · exact ⟨h1, h2, h3⟩
  · exact ⟨h1, h2, h3⟩
  · refine ⟨?_, ?_, ?_⟩ <;> dsimp only
    · exact Nat.zero_le _
    · intro _
      rw [g3]
    · omega
  · refine ⟨?_, ?_, ?_⟩ <;> dsimp only
    · exact h1
    · intro _
      exact h2 (by omega)
    · omega

theorem inv_undoCore (s : Looper) (h : Inv s) : Inv (undoCore s) := by
  obtain ⟨h1, h2, h3⟩ := h
  rw [undoCore]
  dsimp only
  split_ifs with g1 g2
  · exact ⟨h1, h2, h3⟩
  · refine ⟨?_, ?_, ?_⟩ <;> dsimp only
    · exact le_refl 0
    · intro hc
      omega
    · omega
  · refine ⟨?_, ?_, ?_⟩ <;> dsimp only
    · exact h1
    · intro _
      exact h2 (by omega)
    · omega

theorem inv_undo (s : Looper) (h : Inv s) : Inv (undo s) := by
  rw [undo]
  split_ifs with g
  · exact inv_undoCore _ (inv_finishRecording _ h)
  · exact inv_undoCore _ h

theorem inv_redo (s : Looper) (h : Inv s) : Inv (redo s) := by
  obtain ⟨h1, h2, h3⟩ := h
  rw [redo]
  split_ifs with g1 g2 g3
  · exact ⟨h1, h2, h3⟩
  · exact ⟨h1, h2, h3⟩
  · refine ⟨by simp, ?_, ?_⟩
    · intro _
      simp [g3]
    · simp only []
      omega
  · refine ⟨by simp [h1], ?_, ?_⟩
    · intro _
      simp only []
      exact h2 (by omega)
    · simp only []
      omega

theorem inv_thresholdCheck (threshold in1 in2 : ℚ) (s : Looper) (h : Inv s) :
    Inv (thresholdCheck threshold in1 in2 s) := by
  obtain ⟨h1, h2, h3⟩ := h
  rw [thresholdCheck]
  split_ifs with g
  · refine ⟨h1, ?_, h3⟩
    intro hn
    dsimp only at hn ⊢
    rw [Function.update_apply]
    by_cases h0 : (0 : ℕ) = s.nrOfDubs
    · rw [if_pos h0]
      dsimp only
      rw [h2 hn, ← h0]
    · rw [if_neg h0]
      exact h2 hn
  · exact ⟨h1, h2, h3⟩

theorem inv_recordStep (in1 in2 : ℚ) (s : Looper) (h : Inv s) :
    Inv (recordStep in1 in2 s) := by
  obtain ⟨h1, h2, h3⟩ := h
  rw [recordStep]
  split_ifs with g
  · refine ⟨h1, ?_, h3⟩
    intro hn
    dsimp only at hn ⊢
    rw [Function.update_apply, if_neg (by omega)]
    exact h2 hn
  · exact ⟨h1, h2, h3⟩

theorem inv_advanceStep (s : Looper) (h : Inv s) : Inv (advanceStep s) := by
  obtain ⟨h1, h2, h3⟩ := h
  rw [advanceStep]
  dsimp only
  by_cases hn : 0 < s.nrOfDubs
  · rw [if_pos hn]
    have H : Inv { s with currentLoopIndex := 0 } := ⟨Nat.zero_le _, h2, h3⟩
    split_ifs with hw hr hg
    · exact inv_startRecording _ (inv_finishRecording _ H)
    · exact inv_finishRecording _ H
    · exact H
    · dsimp only at hw
      refine ⟨?_, h2, h3⟩
      dsimp only
      omega
  · rw [if_neg hn]
    have H : Inv { s with currentLoopIndex := 0 } := ⟨Nat.zero_le _, h2, h3⟩
    split_ifs with hw hr hg
    · exact inv_startRecording _ (inv_finishRecording _ H)
    · exact inv_finishRecording _ H
    · exact H
    · exact ⟨h1, h2, h3⟩

theorem inv_runSample (threshold dryAmount in1 in2 : ℚ) (s : Looper) (h : Inv s) :
    Inv (runSample threshold dryAmount in1 in2 s).1 := by
  rw [runSample]
  exact inv_advanceStep _ (inv_recordStep _ _ _ (inv_thresholdCheck _ _ _ _ h))

theorem inv_runLoop (threshold dryAmount : ℚ) (input : List (ℚ × ℚ)) (s : Looper)
    (h : Inv s) : Inv (runLoop threshold dryAmount input s).1 := by
  induction input generalizing s with
  | nil => exact h
  | cons p rest ih =>
    rw [runLoop]
    exact ih _ (inv_runSample _ _ _ _ _ h)

theorem inv_run (threshold dryAmount : ℚ) (input : List (ℚ × ℚ)) (s : Looper)
    (h : Inv s) : Inv (run threshold dryAmount input s).1 := by
  rw [run]
  split_ifs with g
  · exact h
  · exact inv_runLoop _ _ _ _ h

/-! ### Field-preservation lemmas -/

theorem startRecording_fields (s : Looper) :
    (startRecording s).loopLength = s.loopLength
    ∧ (startRecording s).nrOfDubs = s.nrOfDubs
    ∧ (startRecording s).currentLoopIndex = s.currentLoopIndex
    ∧ (startRecording s).nrOfUsedSamples = s.nrOfUsedSamples
    ∧ (startRecording s).maxUsedDubs = s.maxUsedDubs
    ∧ (startRecording s).storage1 = s.storage1
    ∧ (startRecording s).storage2 = s.storage2 := by
  rw [startRecording]
  split_ifs <;> exact ⟨rfl, rfl, rfl, rfl, rfl, rfl, rfl⟩

theorem finishRecording_fields (s : Looper) :
    (finishRecording s).nrOfUsedSamples = s.nrOfUsedSamples
    ∧ (finishRecording s).dubs = s.dubs
    ∧ s.nrOfDubs ≤ (finishRecording s).nrOfDubs
    ∧ (1 ≤ s.nrOfDubs → (finishRecording s).loopLength = s.loopLength) := by
  rw [finishRecording]
  split_ifs with g1 g2 g3
  · exact ⟨rfl, rfl, le_refl _, fun _ => rfl⟩
  · exact ⟨rfl, rfl, le_refl _, fun _ => rfl⟩
  · exact ⟨rfl, rfl, by dsimp only; omega, fun hc => by omega⟩
  · exact ⟨rfl, rfl, by dsimp only; omega, fun _ => rfl⟩

theorem undoCore_nrOfDubs (s : Looper) : (undoCore s).nrOfDubs = s.nrOfDubs - 1 := by
  rw [undoCore]
  dsimp only
  split_ifs with g1 g2 <;> first | rfl | omega

theorem undoCore_fields (s : Looper) (h : 1 ≤ (undoCore s).nrOfDubs) :
    (undoCore s).loopLength = s.loopLength
    ∧ (undoCore s).currentLoopIndex = s.currentLoopIndex := by
  rw [undoCore_nrOfDubs] at h
  rw [undoCore]
  dsimp only
  split_ifs with g1 g2
  · exact ⟨rfl, rfl⟩
  · omega
  · exact ⟨rfl, rfl⟩

theorem thresholdCheck_fields (threshold in1 in2 : ℚ) (s : Looper) :
    (thresholdCheck threshold in1 in2 s).nrOfDubs = s.nrOfDubs
    ∧ (thresholdCheck threshold in1 in2 s).loopLength = s.loopLength
    ∧ (thresholdCheck threshold in1 in2 s).nrOfUsedSamples = s.nrOfUsedSamples
    ∧ (thresholdCheck threshold in1 in2 s).currentLoopIndex = s.currentLoopIndex
    ∧ (thresholdCheck threshold in1 in2 s).storageSize = s.storageSize
    ∧ (thresholdCheck threshold in1 in2 s).maxUsedDubs = s.maxUsedDubs := by
  rw [thresholdCheck]
  split_ifs <;> exact ⟨rfl, rfl, rfl, rfl, rfl, rfl⟩

theorem recordStep_fields (in1 in2 : ℚ) (s : Looper) :
    (recordStep in1 in2 s).nrOfDubs = s.nrOfDubs
    ∧ (recordStep in1 in2 s).loopLength = s.loopLength
    ∧ (recordStep in1 in2 s).currentLoopIndex = s.currentLoopIndex
    ∧ (recordStep in1 in2 s).storageSize = s.storageSize
    ∧ (recordStep in1 in2 s).maxUsedDubs = s.maxUsedDubs
    ∧ (recordStep in1 in2 s).state = s.state := by
  rw [recordStep]
  split_ifs with g
  · exact ⟨rfl, rfl, rfl, rfl, rfl, g.symm ▸ rfl⟩
  · exact ⟨rfl, rfl, rfl, rfl, rfl, rfl⟩

theorem advanceStep_used (s : Looper) :
    (advanceStep s).nrOfUsedSamples = s.nrOfUsedSamples := by
  rw [advanceStep]
  dsimp only
  by_cases hn : 0 < s.nrOfDubs
  · rw [if_pos hn]
    split_ifs with hw hr hg
    · rw [(startRecording_fields _).2.2.2.1, (finishRecording_fields _).1]
    · rw [(finishRecording_fields _).1]
    · rfl
    · rfl
  · rw [if_neg hn]
    split_ifs with hw hr hg
    · rw [(startRecording_fields _).2.2.2.1, (finishRecording_fields _).1]
    · rw [(finishRecording_fields _).1]
    · rfl
    · rfl

theorem advanceStep_keeps (s : Looper) (hn : 1 ≤ s.nrOfDubs) :
    1 ≤ (advanceStep s).nrOfDubs ∧ (advanceStep s).loopLength = s.loopLength := by
  rw [advanceStep]
  dsimp only
  rw [if_pos (by omega : 0 < s.nrOfDubs)]
  dsimp only
  split_ifs with hw hr hg
  · constructor
    · rw [(startRecording_fields _).2.1]
      have := (finishRecording_fields ({ s with currentLoopIndex := 0 } : Looper)).2.2.1
      dsimp only at this
      omega
    · rw [(startRecording_fields _).1]
      exact (finishRecording_fields _).2.2.2 hn
  · constructor
    · have := (finishRecording_fields ({ s with currentLoopIndex := 0 } : Looper)).2.2.1
      dsimp only at this
      omega
    · exact (finishRecording_fields _).2.2.2 hn
  · exact ⟨hn, rfl⟩
  · exact ⟨hn, rfl⟩

theorem runSample_keeps (threshold dryAmount in1 in2 : ℚ) (s : Looper)
    (hn : 1 ≤ s.nrOfDubs) :
    1 ≤ (runSample threshold dryAmount in1 in2 s).1.nrOfDubs
    ∧ (runSample threshold dryAmount in1 in2 s).1.loopLength = s.loopLength := by
  rw [runSample]
  dsimp only
  have t := thresholdCheck_fields threshold in1 in2 s
  have r := recordStep_fields in1 in2 (thresholdCheck threshold in1 in2 s)
  have a := advanceStep_keeps (recordStep in1 in2 (thresholdCheck threshold in1 in2 s))
    (by omega)
  refine ⟨a.1, ?_⟩
  rw [a.2, r.2.1, t.2.1]

theorem runLoop_keeps (threshold dryAmount : ℚ) (input : List (ℚ × ℚ)) (s : Looper)
    (hn : 1 ≤ s.nrOfDubs) :
    1 ≤ (runLoop threshold dryAmount input s).1.nrOfDubs
    ∧ (runLoop threshold dryAmount input s).1.loopLength = s.loopLength := by
  induction input generalizing s with
  | nil => exact ⟨hn, rfl⟩
  | cons p rest ih =>
    rw [runLoop]
    dsimp only
    have h1 := runSample_keeps threshold dryAmount p.1 p.2 s hn
    have h2 := ih _ h1.1
    exact ⟨h2.1, h2.2.trans h1.2⟩

theorem run_keeps (threshold dryAmount : ℚ) (input : List (ℚ × ℚ)) (s : Looper)
    (hn : 1 ≤ s.nrOfDubs) :
    (run threshold dryAmount input s).1.loopLength = s.loopLength := by
  rw [run]
  split_ifs with g
  · rfl
  · exact (runLoop_keeps threshold dryAmount input s hn).2

/-! ### Threshold-gating lemmas -/

theorem thresholdCheck_gate (threshold in1 in2 : ℚ) (s : Looper)
    (hw : s.state = State.waitingForThreshold) :
    ((thresholdCheck threshold in1 in2 s).state = State.recording
      ↔ threshold ≤ max |in1| |in2|)
    ∧ (threshold ≤ max |in1| |in2| →
        (thresholdCheck threshold in1 in2 s).dubs s.nrOfDubs =
          { s.dubs s.nrOfDubs with startIndex := s.currentLoopIndex }) := by
  rw [thresholdCheck]
  rw [le_max_iff]
  split_ifs with g
  · refine ⟨⟨fun _ => g.2, fun _ => rfl⟩, fun _ => ?_⟩
    dsimp only
    rw [Function.update_same]
  · constructor
    · dsimp only
      rw [hw]
      constructor
      · intro hc
        cases hc
      · intro hc
        exact absurd ⟨hw, hc⟩ g
    · intro hc
      exact absurd ⟨hw, hc⟩ g

theorem advanceStep_nonrecording (s : Looper) (h : s.state ≠ State.recording) :
    (advanceStep s).state = s.state
    ∧ (advanceStep s).nrOfUsedSamples = s.nrOfUsedSamples
    ∧ (advanceStep s).dubs = s.dubs := by
  rw [advanceStep]
  dsimp only
  by_cases hn : 0 < s.nrOfDubs
  · rw [if_pos hn]
    split_ifs with hw
    · exact ⟨rfl, rfl, rfl⟩
    · exact ⟨rfl, rfl, rfl⟩
  · rw [if_neg hn]
    split_ifs with hw
    · exact ⟨rfl, rfl, rfl⟩
    · exact ⟨rfl, rfl, rfl⟩

theorem runSample_belowThreshold (threshold dryAmount in1 in2 : ℚ) (s : Looper)
    (hw : s.state = State.waitingForThreshold)
    (h1 : |in1| < threshold) (h2 : |in2| < threshold) :
    (runSample threshold dryAmount in1 in2 s).1.state = State.waitingForThreshold
    ∧ (runSample threshold dryAmount in1 in2 s).1.nrOfUsedSamples = s.nrOfUsedSamples
    ∧ (runSample threshold dryAmount in1 in2 s).1.dubs = s.dubs := by
  rw [runSample]
  dsimp only
  have ht : thresholdCheck threshold in1 in2 s = s := by
    rw [thresholdCheck, if_neg]
    intro hc
    rcases hc.2 with hc2 | hc2
    · exact absurd hc2 (not_le.mpr h1)
    · exact absurd hc2 (not_le.mpr h2)
  rw [ht]
  have hr : recordStep in1 in2 s = s := by
    rw [recordStep, if_neg]
    rw [hw]
    intro hc
    cases hc
  rw [hr]
  have ha := advanceStep_nonrecording s (by rw [hw]; intro hc; cases hc)
  exact ⟨ha.1.trans hw, ha.2.1, ha.2.2⟩

theorem runLoop_belowThreshold (threshold dryAmount : ℚ) (input : List (ℚ × ℚ))
    (s : Looper) (hw : s.state = State.waitingForThreshold)
    (hb : ∀ p ∈ input, |p.1| < threshold ∧ |p.2| < threshold) :
    (runLoop threshold dryAmount input s).1.state = State.waitingForThreshold
    ∧ (runLoop threshold dryAmount input s).1.nrOfUsedSamples = s.nrOfUsedSamples
    ∧ (runLoop threshold dryAmount input s).1.dubs = s.dubs := by
  induction input generalizing s with
  | nil => exact ⟨hw, rfl, rfl⟩
  | cons p rest ih =>
    rw [runLoop]
    dsimp only
    have hp := hb p (List.mem_cons_self p rest)
    have hs := runSample_belowThreshold threshold dryAmount p.1 p.2 s hw hp.1 hp.2
    have hrest := ih _ hs.1 (fun q hq => hb q (List.mem_cons_of_mem p hq))
    exact ⟨hrest.1, hrest.2.1.trans hs.2.1, hrest.2.2.trans hs.2.2⟩

theorem run_belowThreshold (threshold dryAmount : ℚ) (input : List (ℚ × ℚ))
    (s : Looper) (hw : s.state = State.waitingForThreshold)
    (hb : ∀ p ∈ input, |p.1| < threshold ∧ |p.2| < threshold) :
    (run threshold dryAmount input s).1.state = State.waitingForThreshold
    ∧ (run threshold dryAmount input s).1.nrOfUsedSamples = s.nrOfUsedSamples
    ∧ (run threshold dryAmount input s).1.dubs = s.dubs := by
  rw [run, if_neg (by rw [hw]; intro hc; cases hc)]
  exact runLoop_belowThreshold threshold dryAmount input s hw hb

/-- Undo immediately followed by Redo is the identity on states whose
arena cursor sits exactly at the end of the top active track. -/
theorem redo_undo_eq (s : Looper)
    (hn : 1 ≤ s.nrOfDubs)
    (hrec : s.state ≠ State.recording)
    (hmax : s.nrOfDubs ≤ s.maxUsedDubs)
    (hpos : s.currentLoopIndex = 0)
    (hL : s.loopLength = (s.dubs 0).length)
    (htop : s.nrOfUsedSamples =
      (s.dubs (s.nrOfDubs - 1)).storageOffset + (s.dubs (s.nrOfDubs - 1)).length) :
    redo (undo s) = s := by
  rw [undo, if_neg hrec, undoCore, if_neg (by omega : ¬s.nrOfDubs = 0)]
  dsimp only
  by_cases h1 : s.nrOfDubs - 1 = 0
  · rw [if_pos h1, redo]
    split_ifs with g1 g2
    · exact absurd g1 hrec
    · exfalso
      dsimp only at g2
      omega
    · dsimp only
      ext <;> (try dsimp only) <;>
        first | rfl | omega | (rw [h1]; exact hL.symm)
  · rw [if_neg h1, redo]
    split_ifs with g1 g2
    · exact absurd g1 hrec
    · exfalso
      dsimp only at g2
      omega
    · dsimp only
      ext <;> (try dsimp only) <;> first | rfl | omega

theorem runSample_atFloor (dryAmount in1 in2 : ℚ) (s : Looper)
    (hw : s.state = State.waitingForThreshold) :
    (runSample 0 dryAmount in1 in2 s).1.nrOfUsedSamples = s.nrOfUsedSamples + 1
    ∧ (recordStep in1 in2 (thresholdCheck 0 in1 in2 s)).state = State.recording := by
  constructor
  · rw [runSample]
    dsimp only
    rw [advanceStep_used]
    have ht : (thresholdCheck 0 in1 in2 s).state = State.recording := by
      rw [thresholdCheck, if_pos ⟨hw, Or.inl (abs_nonneg in1)⟩]
    have htu : (thresholdCheck 0 in1 in2 s).nrOfUsedSamples = s.nrOfUsedSamples :=
      (thresholdCheck_fields 0 in1 in2 s).2.2.1
    rw [recordStep, if_pos ht]
    dsimp only
    rw [htu]
  · have ht : (thresholdCheck 0 in1 in2 s).state = State.recording := by
      rw [thresholdCheck, if_pos ⟨hw, Or.inl (abs_nonneg in1)⟩]
    rw [(recordStep_fields in1 in2 _).2.2.2.2.2, ht]

end Looper

theorem inv_applyCmd (c : Cmd) (s : Looper) (h : Looper.Inv s) :
    Looper.Inv (applyCmd c s) := by
  cases c with
  | activate =>
    rw [applyCmd]
    split_ifs with g
    · exact Looper.inv_finishRecording _ h
    · exact Looper.inv_startRecording _ h
  | dubAndContinue =>
    rw [applyCmd]
    split_ifs with g
    · exact Looper.inv_startRecording _ (Looper.inv_finishRecording _ h)
    · exact Looper.inv_startRecording _ h
  | undoCmd => exact Looper.inv_undo _ h
  | redoCmd => exact Looper.inv_redo _ h
  | resetCmd => exact Looper.inv_reset _

/-- Every reachable state satisfies the engine invariant. -/
theorem reachable_inv {sampleRate : ℕ} {s : Looper} (h : Reachable sampleRate s) :
    Looper.Inv s := by
  induction h with
  | init => exact Looper.inv_init sampleRate
  | cmd c _ ih => exact inv_applyCmd c _ ih
  | step threshold dryAmount input _ ih => exact Looper.inv_run _ _ _ _ ih

/-- One press-record-press cycle used to pile up dubs. -/
def chainStep (s : Looper) : Looper :=
  applyCmd Cmd.activate (Looper.run 0 1 [(1, 1), (1, 1)] (applyCmd Cmd.activate s)).1

theorem chainStep_spec (n : ℕ) (st1 st2 : ℕ → ℚ) (db : ℕ → Dub)
    (hn1 : 1 ≤ n) (hn2 : n ≤ 127) :
    ∃ t1 t2 : ℕ → ℚ, ∃ db2 : ℕ → Dub,
      chainStep ⟨State.playing, 0, 1, 34560000, 2 * n - 1, st1, st2, n, n, db⟩ =
        ⟨State.playing, 0, 1, 34560000, 2 * n + 1, t1, t2, n + 1, n + 1, db2⟩
      ∧ (∀ i, i < n → db2 i = db i) ∧ db2 n = ⟨2 * n - 1, 2, 0⟩ := by
  have hd1 : ¬(NR_OF_DUBS ≤ n) := by
    unfold NR_OF_DUBS
    omega
  have eA : applyCmd Cmd.activate
      (⟨State.playing, 0, 1, 34560000, 2 * n - 1, st1, st2, n, n, db⟩ : Looper) =
      ⟨State.waitingForThreshold, 0, 1, 34560000, 2 * n - 1, st1, st2, n, n,
        Function.update db n ⟨2 * n - 1, 0, (db n).startIndex⟩⟩ := by
    rw [applyCmd]
    dsimp only
    rw [if_neg (by decide)]
    rw [Looper.startRecording]
    dsimp only
    rw [if_neg hd1, if_neg (by omega : ¬((34560000 : ℕ) ≤ 2 * n - 1))]
  rw [chainStep, eA]
  have eT : Looper.thresholdCheck 0 1 1
      (⟨State.waitingForThreshold, 0, 1, 34560000, 2 * n - 1, st1, st2, n, n,
        Function.update db n ⟨2 * n - 1, 0, (db n).startIndex⟩⟩ : Looper) =
      ⟨State.recording, 0, 1, 34560000, 2 * n - 1, st1, st2, n, n,
        Function.update db n ⟨2 * n - 1, 0, 0⟩⟩ := by
    rw [Looper.thresholdCheck]
    dsimp only
    rw [if_pos ⟨rfl, Or.inl (by norm_num)⟩]
    simp [Function.update_same, Function.update_idem]
  have eR : Looper.recordStep 1 1
      (⟨State.recording, 0, 1, 34560000, 2 * n - 1, st1, st2, n, n,
        Function.update db n ⟨2 * n - 1, 0, 0⟩⟩ : Looper) =
      ⟨State.recording, 0, 1, 34560000, 2 * n - 1 + 1,
        Function.update st1 (2 * n - 1) 1, Function.update st2 (2 * n - 1) 1, n, n,
        Function.update db n ⟨2 * n - 1, 1, 0⟩⟩ := by
    rw [Looper.recordStep]
    dsimp only
    rw [if_pos rfl]
    simp [Function.update_same, Function.update_idem]
  have eV1 : (Looper.runSample 0 1 1 1
      (⟨State.waitingForThreshold, 0, 1, 34560000, 2 * n - 1, st1, st2, n, n,
        Function.update db n ⟨2 * n - 1, 0, (db n).startIndex⟩⟩ : Looper)).1 =
      ⟨State.recording, 1, 1, 34560000, 2 * n - 1 + 1,
        Function.update st1 (2 * n - 1) 1, Function.update st2 (2 * n - 1) 1, n, n,
        Function.update db n ⟨2 * n - 1, 1, 0⟩⟩ := by
    rw [Looper.runSample]
    dsimp only
    rw [eT, eR]
    rw [Looper.advanceStep]
    dsimp only
    rw [if_pos (by omega : 0 < n)]
    dsimp only
    rw [if_neg (by omega : ¬((1 : ℕ) < 0 + 1 ∨ (34560000 : ℕ) ≤ 2 * n - 1 + 1))]
  have eT2 : Looper.thresholdCheck 0 1 1
      (⟨State.recording, 1, 1, 34560000, 2 * n - 1 + 1,
        Function.update st1 (2 * n - 1) 1, Function.update st2 (2 * n - 1) 1, n, n,
        Function.update db n ⟨2 * n - 1, 1, 0⟩⟩ : Looper) =
      ⟨State.recording, 1, 1, 34560000, 2 * n - 1 + 1,
        Function.update st1 (2 * n - 1) 1, Function.update st2 (2 * n - 1) 1, n, n,
        Function.update db n ⟨2 * n - 1, 1, 0⟩⟩ := by
    rw [Looper.thresholdCheck]
    dsimp only
    rw [if_neg (by simp)]
  have eR2 : Looper.recordStep 1 1
      (⟨State.recording, 1, 1, 34560000, 2 * n - 1 + 1,
        Function.update st1 (2 * n - 1) 1, Function.update st2 (2 * n - 1) 1, n, n,
        Function.update db n ⟨2 * n - 1, 1, 0⟩⟩ : Looper) =
      ⟨State.recording, 1, 1, 34560000, 2 * n - 1 + 1 + 1,
        Function.update (Function.update st1 (2 * n - 1) 1) (2 * n - 1 + 1) 1,
        Function.update (Function.update st2 (2 * n - 1) 1) (2 * n - 1 + 1) 1, n, n,
        Function.update db n ⟨2 * n - 1, 2, 0⟩⟩ := by
    rw [Looper.recordStep]
    dsimp only
    rw [if_pos rfl]
    simp [Function.update_same, Function.update_idem]
  rw [Looper.run]
  dsimp only
  rw [if_neg (by simp)]
  rw [Looper.runLoop]
  dsimp only
  rw [eV1]
  rw [Looper.runLoop]
  dsimp only
  rw [Looper.runLoop]
  dsimp only
  rw [Looper.runSample]
  dsimp only
  rw [eT2, eR2]
  rw [Looper.advanceStep]
  dsimp only
  rw [if_pos (by omega : 0 < n)]
  dsimp only
  rw [if_pos (Or.inl (by omega : (1 : ℕ) < 1 + 1))]
  rw [Looper.finishRecording_recording _ rfl]
  have hn0 : ¬n = 0 := by omega
  simp only [if_neg hn0]
  rw [if_pos (show 1 < n + 1 from by omega)]
  simp only [if_true]
  rw [Looper.startRecording]
  dsimp only
  by_cases hc : n = 127
  · subst hc
    rw [if_pos (by decide : Loopor.NR_OF_DUBS ≤ 127 + 1)]
    rw [applyCmd]
    dsimp only
    rw [if_neg (by decide)]
    rw [Looper.startRecording]
    dsimp only
    rw [if_pos (by decide : Loopor.NR_OF_DUBS ≤ 127 + 1)]
    rw [show (2 * 127 - 1 + 1 + 1 : ℕ) = 2 * 127 + 1 from by norm_num]
    refine ⟨_, _, _, rfl, ?_, ?_⟩
    · intro i hi
      rw [Function.update_noteq (by omega)]
    · rw [Function.update_same]
  · have hcl : ¬(Loopor.NR_OF_DUBS ≤ n + 1) := by
      unfold Loopor.NR_OF_DUBS
      omega
    rw [if_neg hcl, if_neg (by omega : ¬((34560000 : ℕ) ≤ 2 * n - 1 + 1 + 1))]
    rw [applyCmd]
    dsimp only
    rw [if_pos (Or.inr rfl)]
    rw [Looper.finishRecording]
    dsimp only
    rw [if_pos rfl]
    rw [if_neg (by omega : ¬(n + 1 = 0))]
    rw [show (2 * n - 1 + 1 + 1 : ℕ) = 2 * n + 1 from by omega]
    refine ⟨_, _, _, rfl, ?_, ?_⟩
    · intro i hi
      rw [Function.update_noteq (by omega), Function.update_noteq (by omega)]
    · rw [Function.update_noteq (by omega), Function.update_same]



/-- The first dub of the pile-up trace: one press, one loud sample, one
press, at a 48 kHz sample rate. -/
def chainBase : Looper :=
  applyCmd Cmd.activate
    (Looper.run 0 1 [(1, 1)] (applyCmd Cmd.activate (Looper.init 48000))).1

/-- `chain k` piles `k` further overdubs on top of `chainBase`. -/
def chain : ℕ → Looper
  | 0 => chainBase
  | k + 1 => chainStep (chain k)

/-- The dub records laid down by the pile-up trace. -/
def dubSpec (i : ℕ) : Dub :=
  if i = 0 then ⟨0, 1, 0⟩ else ⟨2 * i - 1, 2, 0⟩

theorem chain_reachable (k : ℕ) : Reachable 48000 (chain k) := by
  induction k with
  | zero =>
    rw [chain, chainBase]
    exact Reachable.cmd Cmd.activate
      (Reachable.step 0 1 [(1, 1)] (Reachable.cmd Cmd.activate Reachable.init))
  | succ k ih =>
    rw [chain, chainStep]
    exact Reachable.cmd Cmd.activate
      (Reachable.step 0 1 [(1, 1), (1, 1)] (Reachable.cmd Cmd.activate ih))

theorem chain_spec (k : ℕ) (hk : k ≤ 127) :
    ∃ t1 t2 : ℕ → ℚ, ∃ db2 : ℕ → Dub,
      chain k = ⟨State.playing, 0, 1, 34560000, 2 * k + 1, t1, t2, k + 1, k + 1, db2⟩
      ∧ ∀ i, i ≤ k → db2 i = dubSpec i := by
  induction k with
  | zero =>
    refine ⟨chainBase.storage1, chainBase.storage2, chainBase.dubs, ?_, ?_⟩
    · show chainBase = _
      ext <;> (try dsimp only) <;> rfl
    · intro i hi
      interval_cases i
      rfl
  | succ k ih =>
    obtain ⟨t1, t2, db2, heq, hdb⟩ := ih (by omega)
    have hs := chainStep_spec (k + 1) t1 t2 db2 (by omega) (by omega)
    rw [show (2 * (k + 1) - 1 : ℕ) = 2 * k + 1 from by omega] at hs
    rw [← heq] at hs
    obtain ⟨u1, u2, dbN, heq2, hlt, hat⟩ := hs
    refine ⟨u1, u2, dbN, ?_, ?_⟩
    · rw [chain]
      exact heq2
    · intro i hi
      by_cases hik : i ≤ k
      · rw [hlt i (by omega)]
        exact hdb i hik
      · have : i = k + 1 := by omega
        subst this
        rw [hat, dubSpec, if_neg (by omega : ¬(k + 1 = 0)),
          show (2 * (k + 1) - 1 : ℕ) = 2 * k + 1 from by omega]


/-- After piling up the full ledger of 128 dubs, undo twice, press
Activate (reserving a slot while waiting for the threshold) and redo
twice: the redo guard misses the waiting state, so the active count
climbs back to 128 while a slot is still reserved at index 128. -/
def c10state : Looper :=
  applyCmd Cmd.redoCmd (applyCmd Cmd.redoCmd (applyCmd Cmd.activate
    (applyCmd Cmd.undoCmd (applyCmd Cmd.undoCmd (chain 127)))))

theorem c10state_spec :
    Reachable 48000 c10state
    ∧ c10state.state = State.waitingForThreshold
    ∧ c10state.nrOfDubs = NR_OF_DUBS := by
  obtain ⟨t1, t2, db, heq, hdb⟩ := chain_spec 127 (by omega)
  have h127 : db 127 = ⟨253, 2, 0⟩ := by
    rw [hdb 127 (by omega), dubSpec, if_neg (by omega : ¬(127 = 0))]
  have h126 : db 126 = ⟨251, 2, 0⟩ := by
    rw [hdb 126 (by omega), dubSpec, if_neg (by omega : ¬(126 = 0))]
  have e1 : applyCmd Cmd.undoCmd (chain 127) =
      ⟨State.playing, 0, 1, 34560000, 253, t1, t2, 127, 128, db⟩ := by
    rw [applyCmd, heq, Looper.undo]
    dsimp only
    rw [if_neg (by simp)]
    rw [Looper.undoCore]
    dsimp only
    rw [if_neg (by norm_num : ¬(127 + 1 = 0))]
    rw [if_neg (by norm_num : ¬(127 + 1 - 1 = 0))]
    rw [show (127 + 1 - 1 : ℕ) = 127 from rfl, h127]
  have e2 : applyCmd Cmd.undoCmd
      (⟨State.playing, 0, 1, 34560000, 253, t1, t2, 127, 128, db⟩ : Looper) =
      ⟨State.playing, 0, 1, 34560000, 251, t1, t2, 126, 128, db⟩ := by
    rw [applyCmd, Looper.undo]
    dsimp only
    rw [if_neg (by simp)]
    rw [Looper.undoCore]
    dsimp only
    rw [if_neg (by norm_num : ¬(127 = 0))]
    rw [if_neg (by norm_num : ¬(127 - 1 = 0))]
    rw [show (127 - 1 : ℕ) = 126 from rfl, h126]
  have e3 : applyCmd Cmd.activate
      (⟨State.playing, 0, 1, 34560000, 251, t1, t2, 126, 128, db⟩ : Looper) =
      ⟨State.waitingForThreshold, 0, 1, 34560000, 251, t1, t2, 126, 128,
        Function.update db 126 ⟨251, 0, 0⟩⟩ := by
    rw [applyCmd]
    dsimp only
    rw [if_neg (by decide)]
    rw [Looper.startRecording]
    dsimp only
    rw [if_neg (by decide : ¬(NR_OF_DUBS ≤ 126)),
      if_neg (by decide : ¬((34560000 : ℕ) ≤ 251))]
    rw [h126]
  have e4 : applyCmd Cmd.redoCmd
      (⟨State.waitingForThreshold, 0, 1, 34560000, 251, t1, t2, 126, 128,
        Function.update db 126 ⟨251, 0, 0⟩⟩ : Looper) =
      ⟨State.waitingForThreshold, 0, 1, 34560000, 251, t1, t2, 127, 128,
        Function.update db 126 ⟨251, 0, 0⟩⟩ := by
    rw [applyCmd, Looper.redo]
    dsimp only
    rw [if_neg (by simp)]
    rw [if_neg (by norm_num : ¬((126 : ℕ) = 128))]
    rw [Function.update_same]
    rw [if_neg (by norm_num : ¬((126 : ℕ) = 0))]
    rfl
  have e5 : applyCmd Cmd.redoCmd
      (⟨State.waitingForThreshold, 0, 1, 34560000, 251, t1, t2, 127, 128,
        Function.update db 126 ⟨251, 0, 0⟩⟩ : Looper) =
      ⟨State.waitingForThreshold, 0, 1, 34560000, 255, t1, t2, 128, 128,
        Function.update db 126 ⟨251, 0, 0⟩⟩ := by
    rw [applyCmd, Looper.redo]
    dsimp only
    rw [if_neg (by simp)]
    rw [if_neg (by norm_num : ¬((127 : ℕ) = 128))]
    rw [Function.update_noteq (by norm_num : (127 : ℕ) ≠ 126), h127]
    rw [if_neg (by norm_num : ¬((127 : ℕ) = 0))]
    rfl
  have eAll : c10state =
      ⟨State.waitingForThreshold, 0, 1, 34560000, 255, t1, t2, 128, 128,
        Function.update db 126 ⟨251, 0, 0⟩⟩ := by
    rw [c10state, e1, e2, e3, e4, e5]
  refine ⟨?_, ?_, ?_⟩
  · exact Reachable.cmd Cmd.redoCmd (Reachable.cmd Cmd.redoCmd
      (Reachable.cmd Cmd.activate (Reachable.cmd Cmd.undoCmd
        (Reachable.cmd Cmd.undoCmd (chain_reachable 127)))))
  · rw [eAll]
  · rw [eAll]
    rfl


namespace Looper

/-! ### Further helpers for the undo characterisation -/

theorem undoCore_maxUsed (s : Looper) : (undoCore s).maxUsedDubs = s.maxUsedDubs := by
  rw [undoCore]
  dsimp only
  split_ifs <;> rfl

theorem undoCore_used (s : Looper) (h : 1 ≤ s.nrOfDubs) :
    (undoCore s).nrOfUsedSamples = (s.dubs (s.nrOfDubs - 1)).storageOffset := by
  rw [undoCore]
  dsimp only
  split_ifs with g1 g2
  · omega
  · rfl
  · rfl

theorem undoCore_clear (s : Looper) (h : s.nrOfDubs = 1) :
    (undoCore s).loopLength = 0 ∧ (undoCore s).currentLoopIndex = 0 := by
  rw [undoCore]
  dsimp only
  rw [if_neg (by omega : ¬s.nrOfDubs = 0), if_pos (by omega : s.nrOfDubs - 1 = 0)]
  exact ⟨rfl, rfl⟩

theorem undoCore_untouched (s : Looper) (h : 2 ≤ s.nrOfDubs) :
    (undoCore s).loopLength = s.loopLength
    ∧ (undoCore s).currentLoopIndex = s.currentLoopIndex := by
  rw [undoCore]
  dsimp only
  rw [if_neg (by omega : ¬s.nrOfDubs = 0), if_neg (by omega : ¬s.nrOfDubs - 1 = 0)]
  exact ⟨rfl, rfl⟩

theorem undo_loopLength (s : Looper) (h : 1 ≤ (undo s).nrOfDubs) :
    (undo s).loopLength = s.loopLength := by
  rw [undo] at h ⊢
  split_ifs at h ⊢ with g
  · have hr := finishRecording_recording s g
    have hfn : (finishRecording s).nrOfDubs = s.nrOfDubs + 1 := by rw [hr]
    have h2 := h
    rw [undoCore_nrOfDubs, hfn] at h2
    have hn1 : 1 ≤ s.nrOfDubs := by omega
    rw [(undoCore_fields _ h).1, (finishRecording_fields s).2.2.2 hn1]
  · exact (undoCore_fields _ h).1

theorem redo_loopLength (s : Looper) (hn : 1 ≤ s.nrOfDubs) :
    (redo s).loopLength = s.loopLength := by
  rw [redo]
  dsimp only
  split_ifs with g1 g2 g3
  · rfl
  · rfl
  · omega
  · rfl

/-- Undo on a state with exactly one active dub followed by Redo brings
the loop length back to the first dub's length. -/
theorem redo_undo_loopLength (s : Looper) (hn : s.nrOfDubs = 1)
    (hrec : s.state ≠ State.recording) (hmax : s.nrOfDubs ≤ s.maxUsedDubs) :
    (redo (undo s)).loopLength = (s.dubs 0).length := by
  rw [undo, if_neg hrec, undoCore]
  dsimp only
  rw [if_neg (by omega : ¬s.nrOfDubs = 0), if_pos (by omega : s.nrOfDubs - 1 = 0)]
  rw [redo]
  split_ifs with g1 g2 g3
  · exact absurd g1 hrec
  · exfalso
    dsimp only at g2
    omega
  · dsimp only
    rw [show s.nrOfDubs - 1 = 0 from by omega]
  · exfalso
    dsimp only at g3
    omega

end Looper


namespace Looper

theorem finish_fade (s : Looper) (hrec : s.state = State.recording)
    (hlen : 128 ≤ (s.dubs s.nrOfDubs).length) :
    ∀ j, j < 64 →
      (finishRecording s).storage1 ((s.dubs s.nrOfDubs).storageOffset + j) =
        s.storage1 ((s.dubs s.nrOfDubs).storageOffset + j) * ((j : ℚ) / 64)
      ∧ (finishRecording s).storage1
          ((s.dubs s.nrOfDubs).storageOffset + (s.dubs s.nrOfDubs).length - 1 - j) =
        s.storage1 ((s.dubs s.nrOfDubs).storageOffset + (s.dubs s.nrOfDubs).length - 1 - j)
          * ((j : ℚ) / 64)
      ∧ (finishRecording s).storage2 ((s.dubs s.nrOfDubs).storageOffset + j) =
        s.storage2 ((s.dubs s.nrOfDubs).storageOffset + j) * ((j : ℚ) / 64)
      ∧ (finishRecording s).storage2
          ((s.dubs s.nrOfDubs).storageOffset + (s.dubs s.nrOfDubs).length - 1 - j) =
        s.storage2 ((s.dubs s.nrOfDubs).storageOffset + (s.dubs s.nrOfDubs).length - 1 - j)
          * ((j : ℚ) / 64) := by
  intro j hj
  have hblen : NR_OF_BLEND_SAMPLES < (s.dubs s.nrOfDubs).length := by
    unfold NR_OF_BLEND_SAMPLES
    omega
  have hk : NR_OF_BLEND_SAMPLES ≤
      (s.dubs s.nrOfDubs).storageOffset + (s.dubs s.nrOfDubs).length - 1 + 1 := by
    unfold NR_OF_BLEND_SAMPLES
    omega
  rw [finishRecording_recording s hrec]
  dsimp only
  rw [if_pos hblen]
  rw [blendChan_apply _ _ _ _ _ hk, blendChan_apply _ _ _ _ _ hk,
    blendChan_apply _ _ _ _ _ hk, blendChan_apply _ _ _ _ _ hk]
  have h64 : (64 : ℕ) ≤ (s.dubs s.nrOfDubs).length := by omega
  have hcast : ((NR_OF_BLEND_SAMPLES : ℕ) : ℚ) = 64 := by
    norm_num [NR_OF_BLEND_SAMPLES]
  refine ⟨?_, ?_, ?_, ?_⟩
  · rw [if_pos (by unfold NR_OF_BLEND_SAMPLES; omega :
        (s.dubs s.nrOfDubs).storageOffset ≤ (s.dubs s.nrOfDubs).storageOffset + j
        ∧ (s.dubs s.nrOfDubs).storageOffset + j <
          (s.dubs s.nrOfDubs).storageOffset + NR_OF_BLEND_SAMPLES)]
    rw [if_neg (by unfold NR_OF_BLEND_SAMPLES; omega)]
    rw [show (s.dubs s.nrOfDubs).storageOffset + j - (s.dubs s.nrOfDubs).storageOffset = j
      from by omega]
    rw [hcast]
    ring
  · rw [if_neg (by unfold NR_OF_BLEND_SAMPLES; omega)]
    rw [if_pos (by unfold NR_OF_BLEND_SAMPLES; omega :
        (s.dubs s.nrOfDubs).storageOffset + (s.dubs s.nrOfDubs).length - 1 + 1 ≤
          (s.dubs s.nrOfDubs).storageOffset + (s.dubs s.nrOfDubs).length - 1 - j
            + NR_OF_BLEND_SAMPLES
        ∧ (s.dubs s.nrOfDubs).storageOffset + (s.dubs s.nrOfDubs).length - 1 - j ≤
          (s.dubs s.nrOfDubs).storageOffset + (s.dubs s.nrOfDubs).length - 1)]
    rw [show (s.dubs s.nrOfDubs).storageOffset + (s.dubs s.nrOfDubs).length - 1 -
        ((s.dubs s.nrOfDubs).storageOffset + (s.dubs s.nrOfDubs).length - 1 - j) = j
      from by omega]
    rw [hcast]
    ring
  · rw [if_pos (by unfold NR_OF_BLEND_SAMPLES; omega :
        (s.dubs s.nrOfDubs).storageOffset ≤ (s.dubs s.nrOfDubs).storageOffset + j
        ∧ (s.dubs s.nrOfDubs).storageOffset + j <
          (s.dubs s.nrOfDubs).storageOffset + NR_OF_BLEND_SAMPLES)]
    rw [if_neg (by unfold NR_OF_BLEND_SAMPLES; omega)]
    rw [show (s.dubs s.nrOfDubs).storageOffset + j - (s.dubs s.nrOfDubs).storageOffset = j
      from by omega]
    rw [hcast]
    ring
  · rw [if_neg (by unfold NR_OF_BLEND_SAMPLES; omega)]
    rw [if_pos (by unfold NR_OF_BLEND_SAMPLES; omega :
        (s.dubs s.nrOfDubs).storageOffset + (s.dubs s.nrOfDubs).length - 1 + 1 ≤
          (s.dubs s.nrOfDubs).storageOffset + (s.dubs s.nrOfDubs).length - 1 - j
            + NR_OF_BLEND_SAMPLES
        ∧ (s.dubs s.nrOfDubs).storageOffset + (s.dubs s.nrOfDubs).length - 1 - j ≤
          (s.dubs s.nrOfDubs).storageOffset + (s.dubs s.nrOfDubs).length - 1)]
    rw [show (s.dubs s.nrOfDubs).storageOffset + (s.dubs s.nrOfDubs).length - 1 -
        ((s.dubs s.nrOfDubs).storageOffset + (s.dubs s.nrOfDubs).length - 1 - j) = j
      from by omega]
    rw [hcast]
    ring

end Looper


/-! ### Demonstration states used by the claim theorems -/

/-- A small reachable state: at sample rate 1, press Activate, record a
single loud sample, press Activate again.  One committed dub of length 1
spanning the whole loop. -/
def demoState : Looper :=
  applyCmd Cmd.activate
    (Looper.run 0 1 [(1, 1)] (applyCmd Cmd.activate (Looper.init 1))).1

theorem demoState_reachable : Reachable 1 demoState :=
  Reachable.cmd Cmd.activate
    (Reachable.step 0 1 [(1, 1)] (Reachable.cmd Cmd.activate Reachable.init))

/-- The engine one block later: the loop cursor has stepped onto the
position equal to the loop length. -/
def demoStateStep : Looper := (Looper.run 0 1 [(0, 0)] demoState).1

theorem demoStateStep_reachable : Reachable 1 demoStateStep :=
  Reachable.step 0 1 [(0, 0)] demoState_reachable

/-- A reachable state in the middle of recording the first take. -/
def recState : Looper :=
  (Looper.run 0 1 [(1, 1)] (applyCmd Cmd.activate (Looper.init 1))).1

theorem recState_reachable : Reachable 1 recState :=
  Reachable.step 0 1 [(1, 1)] (Reachable.cmd Cmd.activate Reachable.init)

/-- A reachable state waiting for the threshold. -/
def waitState : Looper := applyCmd Cmd.activate (Looper.init 1)

theorem waitState_reachable : Reachable 1 waitState :=
  Reachable.cmd Cmd.activate Reachable.init


/-! ### Claim theorems -/

/-- C1 (corrected): in every reachable state the loop position never
passes the loop length: it stays in the closed range from 0 to
loopLength inclusive, and equals 0 whenever loopLength is 0.  Advancing
past the end wraps to 0, but the cursor does spend one sample on the
value loopLength itself, so the original half-open bound fails (see the
counterexample). -/
theorem c1_loop_position_bound (sampleRate : ℕ) (s : Looper)
    (h : Reachable sampleRate s) :
    s.currentLoopIndex ≤ s.loopLength
    ∧ (s.loopLength = 0 → s.currentLoopIndex = 0) := by
  obtain ⟨h1, h2, h3⟩ := reachable_inv h
  exact ⟨h1, fun h0 => by omega⟩

/-- C1 witness: the bound instantiated at a concrete reachable state. -/
theorem c1_loop_position_bound_witness :
    Reachable 1 demoStateStep
    ∧ demoStateStep.currentLoopIndex ≤ demoStateStep.loopLength
    ∧ (demoStateStep.loopLength = 0 → demoStateStep.currentLoopIndex = 0) :=
  ⟨demoStateStep_reachable, c1_loop_position_bound 1 demoStateStep demoStateStep_reachable⟩

/-- C1 counterexample: a reachable state (one dub of length 1, one more
processed sample) whose loop position equals the loop length, refuting
the claimed strict bound loopPosition < loopLength. -/
theorem c1_counterexample :
    Reachable 1 demoStateStep
    ∧ demoStateStep.loopLength = 1
    ∧ demoStateStep.currentLoopIndex = 1
    ∧ ¬(demoStateStep.currentLoopIndex < demoStateStep.loopLength) :=
  ⟨demoStateStep_reachable, by decide, by decide, by decide⟩

/-- C6 (confirmed): a Start issued when the ledger is full
(nrOfDubs = NR_OF_DUBS) or the arena is exhausted
(nrOfUsedSamples = storageSize) is rejected silently and atomically: the
engine state is returned entirely unchanged, both for the bare
startRecording call and for the Activate / Dub button presses issued
outside of a recording or threshold-waiting state. -/
theorem c6_capacity_rejection (s : Looper)
    (h : s.nrOfDubs = NR_OF_DUBS ∨ s.nrOfUsedSamples = s.storageSize) :
    Looper.startRecording s = s
    ∧ (s.state ≠ State.recording → s.state ≠ State.waitingForThreshold →
        applyCmd Cmd.activate s = s ∧ applyCmd Cmd.dubAndContinue s = s) := by
  have hstart : Looper.startRecording s = s := by
    rw [Looper.startRecording]
    rcases h with h | h
    · rw [if_pos (le_of_eq h.symm)]
    · by_cases h1 : NR_OF_DUBS ≤ s.nrOfDubs
      · rw [if_pos h1]
      · rw [if_neg h1, if_pos (le_of_eq h.symm)]
  refine ⟨hstart, fun hr hw => ⟨?_, ?_⟩⟩
  · rw [applyCmd]
    rw [if_neg (by intro hc; rcases hc with hc | hc; exact hr hc; exact hw hc)]
    exact hstart
  · rw [applyCmd]
    rw [if_neg (by intro hc; rcases hc with hc | hc; exact hr hc; exact hw hc)]
    exact hstart

/-- A directly constructed engine state with a full dub ledger. -/
def fullLedger : Looper :=
  ⟨State.playing, 0, 1, 720, 5, fun _ => 0, fun _ => 0, NR_OF_DUBS, NR_OF_DUBS,
    fun _ => default⟩

/-- C6 witness: the rejection instantiated at a full-ledger state. -/
theorem c6_capacity_rejection_witness :
    (fullLedger.nrOfDubs = NR_OF_DUBS
      ∨ fullLedger.nrOfUsedSamples = fullLedger.storageSize)
    ∧ Looper.startRecording fullLedger = fullLedger
    ∧ applyCmd Cmd.activate fullLedger = fullLedger
    ∧ applyCmd Cmd.dubAndContinue fullLedger = fullLedger := by
  have h := c6_capacity_rejection fullLedger (Or.inl rfl)
  have h2 := h.2 (by decide) (by decide)
  exact ⟨Or.inl rfl, h.1, h2.1, h2.2⟩

/-- C9 (corrected): the per-channel arena capacity fixed at construction
is sampleRate * STORAGE_MEMORY_SECONDS * 2, i.e. sampleRate * 720 -- twice
the sampleRate * 360 stated by the claim (see the counterexample). -/
theorem c9_storage_capacity (sampleRate : ℕ) :
    (Looper.init sampleRate).storageSize = sampleRate * STORAGE_MEMORY_SECONDS * 2
    ∧ (Looper.init sampleRate).storageSize = sampleRate * 720 := by
  refine ⟨rfl, ?_⟩
  show sampleRate * STORAGE_MEMORY_SECONDS * 2 = sampleRate * 720
  unfold STORAGE_MEMORY_SECONDS
  ring

/-- C9 counterexample: at 48 kHz the allocated capacity is 34560000
samples per channel, not 48000 * 360 = 17280000 as claimed. -/
theorem c9_counterexample :
    (Looper.init 48000).storageSize = 34560000
    ∧ (Looper.init 48000).storageSize ≠ 48000 * 360 := by
  exact ⟨by decide, by decide⟩


/-- A directly constructed long take about to be finished: 128 recorded
samples of value 1 on both channels starting at arena offset 0. -/
def fadeTake : Looper :=
  ⟨State.recording, 0, 0, 720, 128, fun _ => 1, fun _ => 1, 0, 0,
    fun _ => ⟨0, 128, 0⟩⟩

/-- C2 (corrected): finishing a take applies an in-place linear ramp
over min(length, 64) samples at both ends of the stored range
(NR_OF_BLEND_SAMPLES is 64, not the claimed 32).  For a take of length
at least 128, so that the two ramps do not overlap, sample j from either
edge is scaled by j/64 on both channels; hence the first and last stored
samples become exactly 0, stored sample 32 is scaled by exactly 1/2, and
stored sample 16 by 1/4 rather than the claimed 1/2. -/
theorem c2_boundary_fade (s : Looper) (hrec : s.state = State.recording)
    (hlen : 128 ≤ (s.dubs s.nrOfDubs).length) :
    (∀ j, j < 64 →
      (Looper.finishRecording s).storage1 ((s.dubs s.nrOfDubs).storageOffset + j) =
        s.storage1 ((s.dubs s.nrOfDubs).storageOffset + j) * ((j : ℚ) / 64)
      ∧ (Looper.finishRecording s).storage1
          ((s.dubs s.nrOfDubs).storageOffset + (s.dubs s.nrOfDubs).length - 1 - j) =
        s.storage1 ((s.dubs s.nrOfDubs).storageOffset + (s.dubs s.nrOfDubs).length - 1 - j)
          * ((j : ℚ) / 64)
      ∧ (Looper.finishRecording s).storage2 ((s.dubs s.nrOfDubs).storageOffset + j) =
        s.storage2 ((s.dubs s.nrOfDubs).storageOffset + j) * ((j : ℚ) / 64)
      ∧ (Looper.finishRecording s).storage2
          ((s.dubs s.nrOfDubs).storageOffset + (s.dubs s.nrOfDubs).length - 1 - j) =
        s.storage2 ((s.dubs s.nrOfDubs).storageOffset + (s.dubs s.nrOfDubs).length - 1 - j)
          * ((j : ℚ) / 64))
    ∧ (Looper.finishRecording s).storage1 ((s.dubs s.nrOfDubs).storageOffset) = 0
    ∧ (Looper.finishRecording s).storage2 ((s.dubs s.nrOfDubs).storageOffset) = 0
    ∧ (Looper.finishRecording s).storage1
        ((s.dubs s.nrOfDubs).storageOffset + (s.dubs s.nrOfDubs).length - 1) = 0
    ∧ (Looper.finishRecording s).storage2
        ((s.dubs s.nrOfDubs).storageOffset + (s.dubs s.nrOfDubs).length - 1) = 0
    ∧ (Looper.finishRecording s).storage1 ((s.dubs s.nrOfDubs).storageOffset + 32) =
        s.storage1 ((s.dubs s.nrOfDubs).storageOffset + 32) * (1 / 2)
    ∧ (Looper.finishRecording s).storage1 ((s.dubs s.nrOfDubs).storageOffset + 16) =
        s.storage1 ((s.dubs s.nrOfDubs).storageOffset + 16) * (1 / 4) := by
  have hf := Looper.finish_fade s hrec hlen
  refine ⟨hf, ?_, ?_, ?_, ?_, ?_, ?_⟩
  · have h0 := (hf 0 (by omega)).1
    norm_num at h0
    exact h0
  · have h0 := (hf 0 (by omega)).2.2.1
    norm_num at h0
    exact h0
  · have h0 := (hf 0 (by omega)).2.1
    norm_num at h0
    exact h0
  · have h0 := (hf 0 (by omega)).2.2.2
    norm_num at h0
    exact h0
  · have h32 := (hf 32 (by omega)).1
    rw [h32]
    norm_num
  · have h16 := (hf 16 (by omega)).1
    rw [h16]
    norm_num

/-- C2 witness: the fade instantiated on the concrete 128-sample take of
constant value 1. -/
theorem c2_boundary_fade_witness :
    fadeTake.state = State.recording
    ∧ 128 ≤ (fadeTake.dubs fadeTake.nrOfDubs).length
    ∧ (Looper.finishRecording fadeTake).storage1 0 = 0
    ∧ (Looper.finishRecording fadeTake).storage1 127 = 0
    ∧ (Looper.finishRecording fadeTake).storage1 32 = 1 / 2
    ∧ (Looper.finishRecording fadeTake).storage1 16 = 1 / 4 := by
  have h := c2_boundary_fade fadeTake rfl (by decide)
  have h0 : (Looper.finishRecording fadeTake).storage1 0 = 0 := h.2.1
  have hL : (Looper.finishRecording fadeTake).storage1 127 = 0 := h.2.2.2.1
  have h32 : (Looper.finishRecording fadeTake).storage1 32 =
      fadeTake.storage1 32 * (1 / 2) := h.2.2.2.2.2.1
  have h16 : (Looper.finishRecording fadeTake).storage1 16 =
      fadeTake.storage1 16 * (1 / 4) := h.2.2.2.2.2.2
  refine ⟨rfl, by decide, h0, hL, ?_, ?_⟩
  · rw [h32]
    norm_num [fadeTake]
  · rw [h16]
    norm_num [fadeTake]

/-- A directly constructed short take about to be finished: 32 recorded
samples of value 1 on both channels at arena offset 0 (the same state a
fresh 32-sample recording at the -90 dB threshold floor produces). -/
def shortTake : Looper :=
  ⟨State.recording, 0, 0, 720, 32, fun i => if i < 32 then 1 else 0,
    fun i => if i < 32 then 1 else 0, 0, 0, fun _ => ⟨0, 32, 0⟩⟩

/-- C2 counterexample: on a take of length exactly 32 the two 32-sample
ramps overlap, and stored sample 16 ends up scaled by (16/32)*(15/32) =
15/64, about 0.23 -- not approximately 0.5 as claimed. -/
theorem c2_counterexample :
    shortTake.state = State.recording
    ∧ (shortTake.dubs shortTake.nrOfDubs).length = 32
    ∧ shortTake.storage1 16 = 1
    ∧ (Looper.finishRecording shortTake).storage1 16 = 15 / 64
    ∧ ¬(|(Looper.finishRecording shortTake).storage1 16
          - (1 / 2) * shortTake.storage1 16| ≤ 1 / 10) := by
  have he : (Looper.finishRecording shortTake).storage1 16 = 15 / 64 := by
    rw [Looper.finishRecording_recording shortTake rfl]
    dsimp only
    rw [if_neg (by decide)]
    rw [Looper.blendChan_apply _ _ _ _ _ (by decide)]
    rw [if_pos (by decide), if_pos (by decide)]
    norm_num [shortTake]
  refine ⟨rfl, by decide, by norm_num [shortTake], he, ?_⟩
  rw [he]
  norm_num [shortTake]
  rw [abs_of_nonneg (by norm_num : (0 : ℚ) ≤ 17 / 64)]
  norm_num

/-- C3 (corrected): on every reachable state with at least one active
dub that is not recording, sits at loop start, and whose arena cursor
lies exactly at the end of the top active track (true except after an
undo issued while waiting for the threshold, see the counterexample),
Undo immediately followed by Redo is the identity, so active count, loop
length, used samples, loop position and the whole mixed output of any
subsequent block are restored bit for bit. -/
theorem c3_undo_redo_roundtrip (sampleRate : ℕ) (s : Looper)
    (h : Reachable sampleRate s)
    (hn : 1 ≤ s.nrOfDubs)
    (hrec : s.state ≠ State.recording)
    (hpos : s.currentLoopIndex = 0)
    (htop : s.nrOfUsedSamples =
      (s.dubs (s.nrOfDubs - 1)).storageOffset + (s.dubs (s.nrOfDubs - 1)).length) :
    Looper.redo (Looper.undo s) = s
    ∧ ∀ threshold dryAmount input,
        Looper.run threshold dryAmount input (Looper.redo (Looper.undo s)) =
          Looper.run threshold dryAmount input s := by
  obtain ⟨h1, h2, h3⟩ := reachable_inv h
  have he := Looper.redo_undo_eq s hn hrec h3 hpos (h2 hn) htop
  exact ⟨he, fun threshold dryAmount input => by rw [he]⟩

/-- C3 witness: the round trip instantiated at the concrete one-dub
state. -/
theorem c3_undo_redo_roundtrip_witness :
    Reachable 1 demoState
    ∧ 1 ≤ demoState.nrOfDubs
    ∧ demoState.state ≠ State.recording
    ∧ demoState.currentLoopIndex = 0
    ∧ demoState.nrOfUsedSamples =
        (demoState.dubs (demoState.nrOfDubs - 1)).storageOffset +
          (demoState.dubs (demoState.nrOfDubs - 1)).length
    ∧ Looper.redo (Looper.undo demoState) = demoState := by
  refine ⟨demoState_reachable, by decide, by decide, by decide, by decide, ?_⟩
  exact (c3_undo_redo_roundtrip 1 demoState demoState_reachable (by decide) (by decide)
    (by decide) (by decide)).1

/-- The state used to refute the unconditional round trip: record one
dub, press Activate (reserving a slot), undo while still waiting for the
threshold, then let the same slot re-record over the old data and finish
it.  The arena cursor no longer matches the top track. -/
def c3cex : Looper :=
  applyCmd Cmd.activate
    (Looper.run 0 1 [(2, 2)]
      (applyCmd Cmd.undoCmd (applyCmd Cmd.activate demoState))).1

/-- C3 counterexample: a reachable playing state with one active dub at
loop start where Undo then Redo does not restore nrOfUsedSamples (it
ends at 2 instead of 1). -/
theorem c3_counterexample :
    Reachable 1 c3cex
    ∧ c3cex.nrOfDubs = 1
    ∧ c3cex.state = State.playing
    ∧ c3cex.currentLoopIndex = 0
    ∧ c3cex.nrOfUsedSamples = 1
    ∧ (Looper.redo (Looper.undo c3cex)).nrOfUsedSamples = 2 := by
  refine ⟨?_, by decide, by decide, by decide, by decide, by decide⟩
  exact Reachable.cmd Cmd.activate
    (Reachable.step 0 1 [(2, 2)]
      (Reachable.cmd Cmd.undoCmd (Reachable.cmd Cmd.activate demoState_reachable)))

/-- The state reached by recording one dub, undoing it, and pressing
Activate again: the engine waits for the threshold with an empty ledger
but a nonzero redo horizon. -/
def c4state : Looper := applyCmd Cmd.activate (applyCmd Cmd.undoCmd demoState)

/-- C4 (code_bug): after an Undo, a subsequent Start command does not
make Redo a no-op.  While the engine waits for the threshold, redo's
guard (which only checks for the recording state) lets Redo reactivate
the very slot startRecording just clobbered: nrOfDubs climbs from 0 back
to 1 and the state changes, contradicting the documented invalidation of
redo by a new Start. -/
theorem c4_redo_after_start :
    Reachable 1 c4state
    ∧ c4state.state = State.waitingForThreshold
    ∧ c4state.nrOfDubs = 0
    ∧ c4state.maxUsedDubs = 1
    ∧ (Looper.redo c4state).nrOfDubs = 1
    ∧ Looper.redo c4state ≠ c4state := by
  refine ⟨Reachable.cmd Cmd.activate (Reachable.cmd Cmd.undoCmd demoState_reachable),
    by decide, by decide, by decide, by decide, ?_⟩
  intro hEq
  exact absurd (congrArg Looper.nrOfDubs hEq) (by decide)

/-- C5 (confirmed): the full behaviour of Undo.  Outside of recording:
a no-op on an empty ledger; otherwise the most recent track is
deactivated, the arena cursor rewinds to its storage offset, the redo
horizon maxUsedDubs is kept, and when the last track is undone both
loop length and loop position are cleared (otherwise untouched).  While
recording: the take is finished first, after which the net active count
is unchanged, the horizon is one above it (making the finished take
eligible for redo), and the cursor rewinds to the finished take's
offset. -/
theorem c5_undo_semantics (s : Looper) :
    (s.state ≠ State.recording → s.nrOfDubs = 0 → Looper.undo s = s)
    ∧ (s.state ≠ State.recording → 1 ≤ s.nrOfDubs →
        (Looper.undo s).nrOfDubs = s.nrOfDubs - 1
        ∧ (Looper.undo s).nrOfUsedSamples = (s.dubs (s.nrOfDubs - 1)).storageOffset
        ∧ (Looper.undo s).maxUsedDubs = s.maxUsedDubs
        ∧ (s.nrOfDubs = 1 →
            (Looper.undo s).loopLength = 0 ∧ (Looper.undo s).currentLoopIndex = 0)
        ∧ (2 ≤ s.nrOfDubs →
            (Looper.undo s).loopLength = s.loopLength
            ∧ (Looper.undo s).currentLoopIndex = s.currentLoopIndex))
    ∧ (s.state = State.recording →
        Looper.undo s = Looper.undoCore (Looper.finishRecording s)
        ∧ (Looper.undo s).nrOfDubs = s.nrOfDubs
        ∧ (Looper.undo s).maxUsedDubs = s.nrOfDubs + 1
        ∧ (Looper.undo s).nrOfDubs < (Looper.undo s).maxUsedDubs
        ∧ (Looper.undo s).nrOfUsedSamples = (s.dubs s.nrOfDubs).storageOffset
        ∧ (s.nrOfDubs = 0 →
            (Looper.undo s).loopLength = 0 ∧ (Looper.undo s).currentLoopIndex = 0)) := by
  refine ⟨?_, ?_, ?_⟩
  · intro hr h0
    rw [Looper.undo, if_neg hr, Looper.undoCore, if_pos h0]
  · intro hr hn
    rw [Looper.undo, if_neg hr]
    exact ⟨Looper.undoCore_nrOfDubs s, Looper.undoCore_used s hn,
      Looper.undoCore_maxUsed s, fun h1 => Looper.undoCore_clear s h1,
      fun h2 => Looper.undoCore_untouched s h2⟩
  · intro hr
    have e : Looper.undo s = Looper.undoCore (Looper.finishRecording s) := by
      rw [Looper.undo, if_pos hr]
    have hfr := Looper.finishRecording_recording s hr
    have hfn : (Looper.finishRecording s).nrOfDubs = s.nrOfDubs + 1 := by rw [hfr]
    have hfm : (Looper.finishRecording s).maxUsedDubs = s.nrOfDubs + 1 := by rw [hfr]
    have hfd : (Looper.finishRecording s).dubs = s.dubs :=
      (Looper.finishRecording_fields s).2.1
    have hn : (Looper.undo s).nrOfDubs = s.nrOfDubs := by
      rw [e, Looper.undoCore_nrOfDubs, hfn]
      omega
    have hm : (Looper.undo s).maxUsedDubs = s.nrOfDubs + 1 := by
      rw [e, Looper.undoCore_maxUsed, hfm]
    refine ⟨e, hn, hm, by omega, ?_, ?_⟩
    · rw [e, Looper.undoCore_used _ (by omega), hfd, hfn,
        show s.nrOfDubs + 1 - 1 = s.nrOfDubs from by omega]
    · intro h0
      rw [e]
      exact Looper.undoCore_clear _ (by rw [hfn, h0])

/-- C5 witness: the characterisation applied to a recording state and to
a playing one-dub state. -/
theorem c5_undo_semantics_witness :
    recState.state = State.recording
    ∧ (Looper.undo recState).maxUsedDubs = recState.nrOfDubs + 1
    ∧ (Looper.undo recState).nrOfDubs < (Looper.undo recState).maxUsedDubs
    ∧ demoState.state ≠ State.recording
    ∧ 1 ≤ demoState.nrOfDubs
    ∧ (Looper.undo demoState).nrOfDubs = demoState.nrOfDubs - 1
    ∧ (Looper.undo demoState).maxUsedDubs = demoState.maxUsedDubs := by
  have ha := (c5_undo_semantics recState).2.2 (by decide)
  have hb := (c5_undo_semantics demoState).2.1 (by decide) (by decide)
  exact ⟨by decide, ha.2.2.1, ha.2.2.2.1, by decide, by decide, hb.1, hb.2.2.1⟩

/-- C7 (confirmed): in every reachable state with at least one active
dub the loop length equals the first committed track's length; Start,
Finish, Redo, per-block processing, and any Undo that keeps at least one
active dub leave it unchanged; Reset clears it; and on a one-dub state
an immediate Undo-then-Redo restores it. -/
theorem c7_loop_length_invariant (sampleRate : ℕ) (s : Looper)
    (h : Reachable sampleRate s) (hn : 1 ≤ s.nrOfDubs) :
    s.loopLength = (s.dubs 0).length
    ∧ (Looper.startRecording s).loopLength = s.loopLength
    ∧ (Looper.finishRecording s).loopLength = s.loopLength
    ∧ (Looper.redo s).loopLength = s.loopLength
    ∧ (1 ≤ (Looper.undo s).nrOfDubs → (Looper.undo s).loopLength = s.loopLength)
    ∧ (∀ threshold dryAmount input,
        (Looper.run threshold dryAmount input s).1.loopLength = s.loopLength)
    ∧ (Looper.reset s).loopLength = 0
    ∧ (s.nrOfDubs = 1 → s.state ≠ State.recording →
        (Looper.redo (Looper.undo s)).loopLength = s.loopLength) := by
  obtain ⟨h1, h2, h3⟩ := reachable_inv h
  refine ⟨h2 hn, (Looper.startRecording_fields s).1,
    (Looper.finishRecording_fields s).2.2.2 hn, Looper.redo_loopLength s hn,
    Looper.undo_loopLength s,
    fun threshold dryAmount input => Looper.run_keeps threshold dryAmount input s hn,
    rfl, fun h1eq hrec => ?_⟩
  rw [Looper.redo_undo_loopLength s h1eq hrec (by omega)]
  exact (h2 hn).symm

/-- C7 witness: the invariant instantiated at the concrete one-dub
state. -/
theorem c7_loop_length_invariant_witness :
    Reachable 1 demoState
    ∧ 1 ≤ demoState.nrOfDubs
    ∧ demoState.loopLength = (demoState.dubs 0).length
    ∧ (Looper.startRecording demoState).loopLength = demoState.loopLength
    ∧ (Looper.redo demoState).loopLength = demoState.loopLength := by
  have h := c7_loop_length_invariant 1 demoState demoState_reachable (by decide)
  exact ⟨demoState_reachable, by decide, h.1, h.2.1, h.2.2.2.1⟩

/-- C8 (confirmed): the decibel threshold converts to a linear value
that is clamped to 0 at or below -90 dB; while waiting for the threshold
the engine enters recording exactly when max(abs left, abs right)
reaches the threshold, stamping the new track's start index with the
current loop position; a whole block strictly below the threshold leaves
the engine waiting with the arena cursor and every dub record (hence the
reserved track's zero length) unchanged; and at the 0 floor the very
first processed sample is captured. -/
theorem c8_threshold_gating :
    (∀ db : ℚ, db ≤ -90 → dbToFloat db = 0)
    ∧ (∀ threshold in1 in2 : ℚ, ∀ s : Looper,
        s.state = State.waitingForThreshold →
        (((Looper.thresholdCheck threshold in1 in2 s).state = State.recording)
          ↔ threshold ≤ max |in1| |in2|)
        ∧ (threshold ≤ max |in1| |in2| →
            (Looper.thresholdCheck threshold in1 in2 s).dubs s.nrOfDubs =
              { s.dubs s.nrOfDubs with startIndex := s.currentLoopIndex }))
    ∧ (∀ threshold dryAmount : ℚ, ∀ input : List (ℚ × ℚ), ∀ s : Looper,
        s.state = State.waitingForThreshold →
        (∀ p ∈ input, |p.1| < threshold ∧ |p.2| < threshold) →
        (Looper.run threshold dryAmount input s).1.state = State.waitingForThreshold
        ∧ (Looper.run threshold dryAmount input s).1.nrOfUsedSamples =
            s.nrOfUsedSamples
        ∧ (Looper.run threshold dryAmount input s).1.dubs = s.dubs)
    ∧ (∀ dryAmount in1 in2 : ℚ, ∀ s : Looper,
        s.state = State.waitingForThreshold →
        (Looper.runSample 0 dryAmount in1 in2 s).1.nrOfUsedSamples =
          s.nrOfUsedSamples + 1
        ∧ (Looper.recordStep in1 in2 (Looper.thresholdCheck 0 in1 in2 s)).state =
            State.recording) := by
  refine ⟨?_, ?_, ?_, ?_⟩
  · intro db hdb
    rw [dbToFloat, if_pos hdb]
  · intro threshold in1 in2 s hw
    exact Looper.thresholdCheck_gate threshold in1 in2 s hw
  · intro threshold dryAmount input s hw hb
    exact Looper.run_belowThreshold threshold dryAmount input s hw hb
  · intro dryAmount in1 in2 s hw
    exact Looper.runSample_atFloor dryAmount in1 in2 s hw

/-- C8 witness: the gating facts instantiated at the concrete waiting
state, a threshold of 2, and unit samples. -/
theorem c8_threshold_gating_witness :
    dbToFloat (-90) = 0
    ∧ ((Looper.thresholdCheck 2 1 1 waitState).state = State.recording
        ↔ (2 : ℚ) ≤ max |(1 : ℚ)| |(1 : ℚ)|)
    ∧ (Looper.run 2 1 [(1, 1)] waitState).1.state = State.waitingForThreshold
    ∧ (Looper.run 2 1 [(1, 1)] waitState).1.nrOfUsedSamples =
        waitState.nrOfUsedSamples
    ∧ (Looper.runSample 0 1 1 1 waitState).1.nrOfUsedSamples =
        waitState.nrOfUsedSamples + 1 := by
  have h := c8_threshold_gating
  have hb : ∀ p ∈ [((1 : ℚ), (1 : ℚ))], |p.1| < 2 ∧ |p.2| < 2 := by
    intro p hp
    rw [List.mem_singleton] at hp
    rw [hp]
    norm_num
  have h3 := h.2.2.1 2 1 [(1, 1)] waitState (by decide) hb
  exact ⟨h.1 (-90) (by norm_num), (h.2.1 2 1 1 waitState (by decide)).1,
    h3.1, h3.2.1, (h.2.2.2 1 1 1 waitState (by decide)).1⟩

/-- C10 (code_bug): a reachable state in which the engine waits for the
threshold with nrOfDubs equal to NR_OF_DUBS = 128: the next sample at or
above the threshold executes the slot write at index nrOfDubs, i.e. one
past the last valid index of the 128-entry dub array (in the C++ source
this is an out-of-bounds write to m_dubs[128]).  The final conjunct
exhibits that write at index NR_OF_DUBS in the embedding. -/
theorem c10_dub_index_out_of_bounds :
    Reachable 48000 c10state
    ∧ c10state.state = State.waitingForThreshold
    ∧ c10state.nrOfDubs = NR_OF_DUBS
    ∧ (Looper.thresholdCheck 0 1 1 c10state).dubs =
        Function.update c10state.dubs NR_OF_DUBS
          { c10state.dubs NR_OF_DUBS with startIndex := c10state.currentLoopIndex } := by
  obtain ⟨hr, hw, hn⟩ := c10state_spec
  refine ⟨hr, hw, hn, ?_⟩
  rw [Looper.thresholdCheck, if_pos ⟨hw, Or.inl (abs_nonneg 1)⟩, hn]

end Loopor
